import Mathlib

/-!
Shallow embedding of the natural-language data assistant of the
water-utilities dashboard repository: the plan compiler, plan executor and
assistant facade of `modules/chatbot.py` (`WaterSemanticAssistant`), and the
signature-based cache coherence of `modules/semantic_index.py`
(`SemanticIndex`).

Modelling conventions:
- A pandas DataFrame is a `Table`: a column-name list plus rows of `Cell`s
  (numbers, strings, or NaN/None as `Cell.null`).  Machine floats are
  modelled as exact rationals; every verified statement only involves values
  on which float arithmetic is exact.
- JSON values parsed by `json.loads` are the inductive `Json`; fallible
  Python operations (`m["name"]`, `int(x)`, elementwise comparisons with
  incomparable types, `df[False]`) return `Except PyError`.
- The external language model, `json.loads` itself, the embedding model and
  the file system are external collaborators and are passed as parameters
  (`parse`, `summarize`, `hash`, `files`).
-/

/-- A scalar cell of a loaded CSV table: numeric, text, or missing
(pandas NaN / Python None). -/
inductive Cell where
  | num (q : ℚ)
  | str (s : String)
  | null
  deriving DecidableEq

/-- A parsed JSON value, the result type of `json.loads` on the model's
response (Python dicts are association lists in document order). -/
inductive Json where
  | null
  | bool (b : Bool)
  | num (q : ℚ)
  | str (s : String)
  | arr (elems : List Json)
  | obj (fields : List (String × Json))

/-- A raised Python exception, as propagated by the source (which has no
try/except around plan execution). -/
inductive PyError where
  | keyError (key : String)
  | typeError (msg : String)
  | valueError (msg : String)
  | runtimeError (msg : String)
  | attributeError (msg : String)
  deriving DecidableEq

/-- A hashable Python value usable as a dict key; Python's `True == 1`
makes booleans collide with numbers, so they are mapped to numbers. -/
inductive PyKey where
  | knull
  | knum (q : ℚ)
  | kstr (s : String)
  deriving DecidableEq

/-- An in-memory table of the Table Store: the column header plus the rows
(each row listing cells in column order). -/
structure Table where
  cols : List String
  rows : List (List Cell)
  deriving DecidableEq

/-- The per-metric entry of the execution results dict: on success the
source stores value/dataset/column/agg/filters, on failure `{error: msg}`. -/
inductive MResult where
  | val (value : ℚ) (dataset : String) (column : String) (agg : String) (filters : Json)
  | err (msg : String)

/-- One catalog entry of the `DATASETS` configuration (`path`,
`description`, `column_notes`). -/
structure DatasetCfg where
  path : String
  description : String
  column_notes : String
  deriving DecidableEq

/-- One record of the signature payload assembled by
`SemanticIndex._compute_signature` for a single dataset. -/
structure SigEntry where
  dataset_name : String
  path : String
  mtime : Option ℚ
  description : String
  column_notes : String
  deriving DecidableEq

/-- One document of the semantic index (`dataset::<name>` or
`column::<name>::<col>`), with its text and flattened metadata. -/
structure Doc where
  id : String
  text : String
  kind : String
  dataset : String
  column : String
  deriving DecidableEq

/-- The persisted Chroma collection: the semantic documents plus the
special `__meta__` document holding the stored signature (`none` when no
signature document is present, which `_get_stored_signature` reports
as the empty string). -/
structure Collection (σ : Type) where
  docs : List Doc
  meta : Option σ

/-! ## String utilities -/

/-- List-level prefix test used to implement substring search. -/
def listIsPre : List Char → List Char → Bool
  | [], _ => true
  | _ :: _, [] => false
  | a :: as, b :: bs => a == b && listIsPre as bs

/-- Substring containment on char lists (`needle` occurs inside the list). -/
def listContainsSub (needle : List Char) : List Char → Bool
  | [] => needle.isEmpty
  | c :: t => listIsPre needle (c :: t) || listContainsSub needle t

/-- Python's `pat in hay` substring test on strings.  The source's uses of
`Series.str.contains` only ever pass all-digit patterns, for which the
pandas regex search coincides with plain substring search. -/
def strContains (hay pat : String) : Bool := listContainsSub pat.toList hay.toList

/-- ASCII lowering of one character (`str.lower()` is only applied to the
ASCII column names of the catalog tables). -/
def lowerChar : Char → Char
  | 'A' => 'a' | 'B' => 'b' | 'C' => 'c' | 'D' => 'd' | 'E' => 'e' | 'F' => 'f'
  | 'G' => 'g' | 'H' => 'h' | 'I' => 'i' | 'J' => 'j' | 'K' => 'k' | 'L' => 'l'
  | 'M' => 'm' | 'N' => 'n' | 'O' => 'o' | 'P' => 'p' | 'Q' => 'q' | 'R' => 'r'
  | 'S' => 's' | 'T' => 't' | 'U' => 'u' | 'V' => 'v' | 'W' => 'w' | 'X' => 'x'
  | 'Y' => 'y' | 'Z' => 'z'
  | c => c

/-- Python `s.lower()` on ASCII strings. -/
def strLower (s : String) : String := ⟨s.toList.map lowerChar⟩

/-- Equality decision for the modelled exception-carrying results. -/
instance {ε α : Type} [DecidableEq ε] [DecidableEq α] : DecidableEq (Except ε α) := fun x y =>
  match x, y with
  | .ok a, .ok b =>
    if h : a = b then isTrue (by rw [h]) else isFalse (fun hh => by cases hh; exact h rfl)
  | .error a, .error b =>
    if h : a = b then isTrue (by rw [h]) else isFalse (fun hh => by cases hh; exact h rfl)
  | .ok _, .error _ => isFalse (fun hh => by cases hh)
  | .error _, .ok _ => isFalse (fun hh => by cases hh)

/-- Rendering of a rational the way Python's `str` renders the numbers that
occur in this pipeline.  Integral values print like Python ints; the
non-integral branch is an approximation of float repr that no verified
statement depends on. -/
def numToStr (q : ℚ) : String :=
  if q.den = 1 then toString q.num else toString q.num ++ "/" ++ toString q.den

/-- Python `str()` of a cell as produced by `Series.astype(str)`:
pandas renders missing values as "nan". -/
def cellStr : Cell → String
  | .num q => numToStr q
  | .str s => s
  | .null => "nan"

mutual

/-- Python `str()` of a JSON value (used by the source's f-string error
messages and by `str(time_scope.get("year"))`). -/
def pyStr : Json → String
  | .null => "None"
  | .bool b => if b then "True" else "False"
  | .num q => numToStr q
  | .str s => s
  | .arr es => "[" ++ pyReprJoin es ++ "]"
  | .obj fs => "\x7b" ++ pyReprFields fs ++ "\x7d"

/-- Python `repr()` of a JSON value, used for elements inside containers. -/
def pyRepr : Json → String
  | .null => "None"
  | .bool b => if b then "True" else "False"
  | .num q => numToStr q
  | .str s => "\x27" ++ s ++ "\x27"
  | .arr es => "[" ++ pyReprJoin es ++ "]"
  | .obj fs => "\x7b" ++ pyReprFields fs ++ "\x7d"

/-- Comma-joined `repr` of list elements. -/
def pyReprJoin : List Json → String
  | [] => ""
  | [j] => pyRepr j
  | j :: js => pyRepr j ++ ", " ++ pyReprJoin js

/-- Comma-joined `repr` of dict fields. -/
def pyReprFields : List (String × Json) → String
  | [] => ""
  | [(k, v)] => "\x27" ++ k ++ "\x27: " ++ pyRepr v
  | (k, v) :: fs => "\x27" ++ k ++ "\x27: " ++ pyRepr v ++ ", " ++ pyReprFields fs

end

/-! ## Python dict / iteration semantics on `Json` -/

/-- Key lookup in a JSON object's field list (Python dict keys are unique;
the first match is taken). -/
def jsonLookup : List (String × Json) → String → Option Json
  | [], _ => none
  | (k, v) :: t, k2 => if k == k2 then some v else jsonLookup t k2

/-- Python `d.get(key, default)`: raises `AttributeError` when the value is
not a dict. -/
def dictGetD (j : Json) (k : String) (d : Json) : Except PyError Json :=
  match j with
  | .obj fs => .ok ((jsonLookup fs k).getD d)
  | _ => .error (.attributeError "get")

/-- Python `d[key]` subscription: `KeyError` on a missing key, `TypeError`
when the value is not a dict (the loop variables of `_execute_plan` may be
arbitrary JSON). -/
def dictGetItem (j : Json) (k : String) : Except PyError Json :=
  match j with
  | .obj fs =>
    match jsonLookup fs k with
    | some v => .ok v
    | none => .error (.keyError k)
  | _ => .error (.typeError "not subscriptable")

/-- Python iteration (`for x in v`): lists yield elements, dicts yield
their keys, strings yield 1-character strings, scalars raise `TypeError`. -/
def pyIter (j : Json) : Except PyError (List Json) :=
  match j with
  | .arr es => .ok es
  | .obj fs => .ok (fs.map (fun f => .str f.1))
  | .str s => .ok (s.toList.map (fun c => .str (String.singleton c)))
  | _ => .error (.typeError "not iterable")

/-- Conversion of a JSON value into a Python dict key (`results[name]`):
containers are unhashable. -/
def toKey : Json → Except PyError PyKey
  | .null => .ok .knull
  | .bool b => .ok (.knum (if b then 1 else 0))
  | .num q => .ok (.knum q)
  | .str s => .ok (.kstr s)
  | .arr _ => .error (.typeError "unhashable type")
  | .obj _ => .error (.typeError "unhashable type")

/-- Python dict assignment `d[k] = v`: replaces in place when the key is
present (preserving insertion order), appends otherwise. -/
def dictInsert : List (PyKey × MResult) → PyKey → MResult → List (PyKey × MResult)
  | [], k, v => [(k, v)]
  | (k2, v2) :: t, k, v => if k2 = k then (k, v) :: t else (k2, v2) :: dictInsert t k v

/-- Python dict lookup by key on the modelled results dict. -/
def dictLookup : List (PyKey × MResult) → PyKey → Option MResult
  | [], _ => none
  | (k2, v) :: t, k => if k2 = k then some v else dictLookup t k

/-! ## Comparison semantics of `_apply_filters` -/

/-- A JSON scalar viewed as a comparable Python value: numbers and booleans
compare numerically, strings lexicographically; `none` covers
`None`/containers, which compare unequal to scalars and are unorderable. -/
def jsonScalar : Json → Option (ℚ ⊕ String)
  | .num q => some (.inl q)
  | .bool b => some (.inl (if b then 1 else 0))
  | .str s => some (.inr s)
  | _ => none

/-- A cell viewed as a comparable Python value (`none` is a missing value). -/
def cellScalar : Cell → Option (ℚ ⊕ String)
  | .num q => some (.inl q)
  | .str s => some (.inr s)
  | .null => none

/-- The six comparison operators accepted by `_apply_filters`; any other
`op` string matches no branch and the filter is a no-op. -/
def filterOps : List String := [">", ">=", "<", "<=", "==", "!="]

/-- Numeric dispatch of one comparison operator. -/
def numCmp (op : String) (a b : ℚ) : Bool :=
  if op == ">" then decide (b < a)
  else if op == ">=" then decide (b ≤ a)
  else if op == "<" then decide (a < b)
  else if op == "<=" then decide (a ≤ b)
  else if op == "==" then decide (a = b)
  else decide (¬a = b)

/-- String dispatch of one comparison operator (Python compares strings
lexicographically by code point, as Lean's `String` order does). -/
def strCmp (op : String) (a b : String) : Bool :=
  if op == ">" then decide (b < a)
  else if op == ">=" then decide (b ≤ a)
  else if op == "<" then decide (a < b)
  else if op == "<=" then decide (a ≤ b)
  else if op == "==" then decide (a = b)
  else decide (¬a = b)

/-- Elementwise comparison of one cell against the filter value, following
pandas' comparison of a Series with a scalar: missing cells compare `False`
(`True` for `!=`); mixed scalar kinds are equal-comparable (`==` is `False`,
`!=` is `True`) but unorderable (`TypeError`). -/
def pyCompare (c : Cell) (op : String) (v : Json) : Except PyError Bool :=
  match cellScalar c with
  | none => .ok (op == "!=")
  | some x =>
    match jsonScalar v with
    | none =>
      if op == "==" then .ok false
      else if op == "!=" then .ok true
      else .error (.typeError "unorderable")
    | some y =>
      match x, y with
      | .inl a, .inl b => .ok (numCmp op a b)
      | .inr a, .inr b => .ok (strCmp op a b)
      | _, _ =>
        if op == "==" then .ok false
        else if op == "!=" then .ok true
        else .error (.typeError "unorderable")

/-! ## Numeric coercion and table access -/

/-- Cell of a row at a column index (rows are parallel to the header). -/
def cellAt (row : List Cell) (i : Nat) : Cell := row.getD i Cell.null

/-- Rows of a table filtered by a predicate; the header is unchanged. -/
def filterRows (t : Table) (p : List Cell → Bool) : Table :=
  ⟨t.cols, t.rows.filter p⟩

/-- Splitting a char list at dots, for numeric string parsing. -/
def splitDot : List Char → List (List Char)
  | [] => [[]]
  | '.' :: t => [] :: splitDot t
  | c :: t =>
    match splitDot t with
    | h :: r => (c :: h) :: r
    | [] => [[c]]

/-- Value of a digit list. -/
def digitsToNat (l : List Char) : Nat :=
  l.foldl (fun a c => a * 10 + (c.toNat - 48)) 0

/-- Decimal numeric-string parsing as done by `pd.to_numeric`: optional
sign, digits with an optional fractional part, surrounding whitespace
stripped.  Exotic float syntax (exponents, inf/nan, underscores) is not
modelled; no verified statement feeds it such strings. -/
def parseNum (s0 : String) : Option ℚ :=
  let l0 := s0.trim.toList
  let sign : ℚ := match l0 with
    | '-' :: _ => -1
    | _ => 1
  let l := match l0 with
    | '-' :: t => t
    | '+' :: t => t
    | _ => l0
  match splitDot l with
  | [ip] =>
    if !ip.isEmpty && ip.all Char.isDigit then some (sign * digitsToNat ip) else none
  | [ip, fp] =>
    if ip.all Char.isDigit && fp.all Char.isDigit && !(ip.isEmpty && fp.isEmpty) then
      some (sign * ((digitsToNat ip : ℚ) + (digitsToNat fp : ℚ) / ((10 : ℚ) ^ fp.length)))
    else none
  | _ => none

/-- `pd.to_numeric(series, errors="coerce")` on one cell: numbers pass
through, numeric strings parse, everything else becomes NaN (`none`),
which `dropna` then removes. -/
def toNumeric : Cell → Option ℚ
  | .num q => some q
  | .null => none
  | .str s => parseNum s

/-- Python `int(x)` as applied to `time_scope.get("start_year")`:
numbers truncate toward zero, numeric strings parse, `None` raises. -/
def pyIntCast : Json → Except PyError Int
  | .num q =>
    .ok (if q.den = 1 then q.num
         else if q.num ≥ 0 then q.num / (q.den : Int) else -((-q.num) / (q.den : Int)))
  | .bool b => .ok (if b then 1 else 0)
  | .str s =>
    match s.trim.toInt? with
    | some n => .ok n
    | none => .error (.valueError "invalid literal for int")
  | _ => .error (.typeError "int() argument")

/-- Python `range(s, e + 1)` over integers. -/
def pyRange (s e : Int) : List Int :=
  (List.range (e + 1 - s).toNat).map (fun i => s + (i : Int))

/-! ## Plan Compiler (`WaterSemanticAssistant._plan_query`) -/

/-- The minimal no-op plan substituted by `_plan_query` when the model's
output fails to parse as JSON. -/
def noopPlan : Json :=
  .obj [("time_scope", .obj [("type", .str "all")]),
        ("metrics", .arr []),
        ("comparison", .obj [("type", .str "none"),
                             ("left_metric", .null), ("right_metric", .null)])]

/-- The parsing tail of `_plan_query`: the model's raw response is
stripped and fed to `json.loads` (modelled by the abstract `parse`
parameter, `none` standing for a `json.JSONDecodeError`); on failure the
no-op plan is returned instead of propagating the exception. -/
def plan_query (parse : String → Option Json) (response : String) : Json :=
  match parse response.trim with
  | some plan => plan
  | none => noopPlan

/-! ## Plan Executor (`_apply_time_scope`, `_apply_filters`, `_execute_plan`) -/

/-- `WaterSemanticAssistant._apply_time_scope`: year-based filtering on the
first column whose name contains "date" (case-insensitively).  An empty
`range(start_year, end_year + 1)` leaves `mask` as the Python constant
`False`, and `df[False]` raises `KeyError: False`. -/
def apply_time_scope (t : Table) (ts : Json) : Except PyError Table :=
  match ts with
  | .obj fs =>
    match (jsonLookup fs "type").getD (.str "all") with
    | .str tt =>
      if tt == "all" then .ok t
      else
        match t.cols.findIdx? (fun c => strContains (strLower c) "date") with
        | none => .ok t
        | some i =>
          if tt == "year" then
            .ok (filterRows t (fun row =>
              strContains (cellStr (cellAt row i)) (pyStr ((jsonLookup fs "year").getD .null))))
          else if tt == "range" then
            match pyIntCast ((jsonLookup fs "start_year").getD .null) with
            | .error e => .error e
            | .ok s =>
              match pyIntCast ((jsonLookup fs "end_year").getD .null) with
              | .error e => .error e
              | .ok e2 =>
                if s > e2 then .error (.keyError "False")
                else .ok (filterRows t (fun row =>
                  (pyRange s e2).any (fun y => strContains (cellStr (cellAt row i)) (toString y))))
          else .ok t
    | _ =>
      -- a non-string `type` value compares unequal to "all"/"year"/"range",
      -- so every branch of the source returns the frame unchanged
      .ok t
  | _ => .error (.attributeError "get")

/-- Elementwise mask-and-select of `res[series op val]`: the comparison is
evaluated row by row and the first incomparable pair raises. -/
def filterRowsE (o : String) (v : Json) (i : Nat) : List (List Cell) → Except PyError (List (List Cell))
  | [] => .ok []
  | r :: rs =>
    match pyCompare (cellAt r i) o v with
    | .error e => .error e
    | .ok b =>
      match filterRowsE o v i rs with
      | .error e => .error e
      | .ok rest => .ok (if b then r :: rest else rest)

/-- One iteration of the loop of `_apply_filters`: a filter whose column is
not in the frame (or whose op matches no branch) leaves the frame
unchanged. -/
def applyOneFilter (t : Table) (f : Json) : Except PyError Table :=
  match f with
  | .obj fs =>
    match (jsonLookup fs "column").getD .null with
    | .str c =>
      match t.cols.findIdx? (fun c2 => c2 == c) with
      | none => .ok t
      | some i =>
        match (jsonLookup fs "op").getD .null with
        | .str o =>
          if filterOps.contains o then
            match filterRowsE o ((jsonLookup fs "value").getD .null) i t.rows with
            | .error e => .error e
            | .ok rows => .ok ⟨t.cols, rows⟩
          else .ok t
        | _ => .ok t
    | _ => .ok t
  | _ => .error (.attributeError "get")

/-- The loop of `_apply_filters` over an already-extracted filter list. -/
def applyFiltersL : Table → List Json → Except PyError Table
  | t, [] => .ok t
  | t, f :: fl =>
    match applyOneFilter t f with
    | .error e => .error e
    | .ok t2 => applyFiltersL t2 fl

/-- `WaterSemanticAssistant._apply_filters` on the raw `filters` value. -/
def apply_filters (t : Table) (filters : Json) : Except PyError Table :=
  match pyIter filters with
  | .error e => .error e
  | .ok fl => applyFiltersL t fl

/-- Lookup of a dataset name in the assistant's `self.tables` dict. -/
def tlookup : List (String × Table) → String → Option Table
  | [], _ => none
  | (n, t) :: rest, d => if n == d then some t else tlookup rest d

/-- Sum of a rational list (`float(series.sum())`). -/
def sumQ : List ℚ → ℚ
  | [] => 0
  | q :: t => q + sumQ t

/-- The body of the metric loop of `_execute_plan` for a single metric:
field extraction (which raises `KeyError` on a missing key), dataset
resolution, time scoping, filtering, numeric coercion and aggregation,
producing the metric's results-dict entry. -/
def execMetric (T : List (String × Table)) (ts : Json) (m : Json) : Except PyError (PyKey × MResult) :=
  match dictGetItem m "name" with
  | .error e => .error e
  | .ok nameJ =>
  match toKey nameJ with
  | .error e => .error e
  | .ok name =>
  match dictGetItem m "dataset" with
  | .error e => .error e
  | .ok datasetJ =>
  match dictGetItem m "column" with
  | .error e => .error e
  | .ok columnJ =>
  match dictGetItem m "agg" with
  | .error e => .error e
  | .ok aggJ =>
  match dictGetD m "filters" (.arr []) with
  | .error e => .error e
  | .ok filters =>
  match datasetJ with
  | .str d =>
    match tlookup T d with
    | none => .ok (name, .err ("Unknown dataset " ++ d))
    | some df =>
      match apply_time_scope df ts with
      | .error e => .error e
      | .ok df1 =>
      match apply_filters df1 filters with
      | .error e => .error e
      | .ok df2 =>
      match columnJ with
      | .str c =>
        match df2.cols.findIdx? (fun c2 => c2 == c) with
        | none => .ok (name, .err ("Unknown column " ++ c ++ " in " ++ d))
        | some i =>
          match (df2.rows.map (fun r => cellAt r i)).filterMap toNumeric with
          | [] => .ok (name, .err "No data after filtering")
          | v0 :: vrest =>
            match aggJ with
            | .str ag =>
              if ag == "sum" then
                .ok (name, .val (sumQ (v0 :: vrest)) d c ag filters)
              else if ag == "mean" then
                .ok (name, .val (sumQ (v0 :: vrest) / ((v0 :: vrest).length : ℚ)) d c ag filters)
              else if ag == "max" then
                .ok (name, .val (vrest.foldl max v0) d c ag filters)
              else if ag == "min" then
                .ok (name, .val (vrest.foldl min v0) d c ag filters)
              else .ok (name, .err ("Unknown agg " ++ ag))
            | _ => .ok (name, .err ("Unknown agg " ++ pyStr aggJ))
      | _ => .ok (name, .err ("Unknown column " ++ pyStr columnJ ++ " in " ++ d))
  | _ => .ok (name, .err ("Unknown dataset " ++ pyStr datasetJ))

/-- The metric loop of `_execute_plan`, accumulating the results dict. -/
def runMetrics (T : List (String × Table)) (ts : Json) : List Json → List (PyKey × MResult) → Except PyError (List (PyKey × MResult))
  | [], acc => .ok acc
  | m :: rest, acc =>
    match execMetric T ts m with
    | .error e => .error e
    | .ok kr => runMetrics T ts rest (dictInsert acc kr.1 kr.2)

/-- `WaterSemanticAssistant._execute_plan`: extracts `time_scope` and
`metrics` with defaults and runs the metric loop. -/
def execute_plan (T : List (String × Table)) (plan : Json) : Except PyError (List (PyKey × MResult)) :=
  match dictGetD plan "time_scope" (.obj [("type", .str "all")]) with
  | .error e => .error e
  | .ok ts =>
  match dictGetD plan "metrics" (.arr []) with
  | .error e => .error e
  | .ok metricsJ =>
  match pyIter metricsJ with
  | .error e => .error e
  | .ok ms => runMetrics T ts ms []

/-- `WaterSemanticAssistant.answer`: plan (with JSON fallback), execute,
summarize.  The model's planning response and the summarizer are external
inputs; any exception raised by `_execute_plan` propagates to the caller. -/
def answer (T : List (String × Table)) (parse : String → Option Json)
    (planResponse : String) (summarize : Json → List (PyKey × MResult) → String) :
    Except PyError String :=
  let plan := plan_query parse planResponse
  match execute_plan T plan with
  | .error e => .error e
  | .ok res => .ok (summarize plan res)

/-! ## Assistant construction (`WaterSemanticAssistant.__init__`) -/

/-- The modelled file system: a path maps to `some (mtime, parsed table)`
when the file exists (`os.path.getmtime` / `pd.read_csv`), `none` when it
is missing. -/
def FileSys : Type := String → Option (ℚ × Table)

/-- The date-string normalization of `__init__`: every column whose name
contains "date" (case-insensitively) is `astype(str)`-converted. -/
def normalizeRow (cols : List String) : List Cell → List Cell
  | [] => []
  | x :: xs =>
    match cols with
    | [] => x :: xs
    | c :: cs =>
      (if strContains (strLower c) "date" then Cell.str (cellStr x) else x) :: normalizeRow cs xs

/-- Table after the `__init__` date normalization. -/
def normalizeTable (t : Table) : Table :=
  ⟨t.cols, t.rows.map (normalizeRow t.cols)⟩

/-- The dataset-loading loop of `__init__`: missing files are skipped with
a printed warning, existing ones load and are date-normalized. -/
def loadTables (cat : List (String × DatasetCfg)) (files : FileSys) : List (String × Table) :=
  cat.filterMap (fun nc => (files nc.2.path).map (fun ft => (nc.1, normalizeTable ft.2)))

/-- `WaterSemanticAssistant.__init__` up to table loading: raises
`RuntimeError("No datasets loaded for assistant.")` only when no dataset
loaded at all. -/
def assistant_init (cat : List (String × DatasetCfg)) (files : FileSys) :
    Except PyError (List (String × Table)) :=
  let tables := loadTables cat files
  if tables.isEmpty then .error (.runtimeError "No datasets loaded for assistant.")
  else .ok tables

/-! ## Semantic Index (`modules/semantic_index.py`) -/

/-- Insertion into a name-sorted catalog list, implementing Python's
`sorted(datasets_config.items())` (dataset names are dict keys, hence
distinct, so the tuple comparison never reaches the config dict). -/
def insertSorted (x : String × DatasetCfg) : List (String × DatasetCfg) → List (String × DatasetCfg)
  | [] => [x]
  | y :: t => if x.1 ≤ y.1 then x :: y :: t else y :: insertSorted x t

/-- Name-sorting of the catalog, as `_compute_signature` does. -/
def sortByName : List (String × DatasetCfg) → List (String × DatasetCfg)
  | [] => []
  | x :: t => insertSorted x (sortByName t)

/-- One dataset's record of the signature payload: its name, path, mtime
(or `None` when the file is missing), description and column notes. -/
def sigEntryOf (files : FileSys) (nc : String × DatasetCfg) : SigEntry :=
  ⟨nc.1, nc.2.path, (files nc.2.path).map Prod.fst, nc.2.description, nc.2.column_notes⟩

/-- The payload list serialized and hashed by
`SemanticIndex._compute_signature`, assembled over the sorted catalog. -/
def sigPayload (cat : List (String × DatasetCfg)) (files : FileSys) : List SigEntry :=
  (sortByName cat).map (sigEntryOf files)

/-- `SemanticIndex._compute_signature`: the SHA-256 of the sorted JSON
payload is modelled as an abstract encoding `hash` of the payload
(the claims about it take injectivity of the encoding as a hypothesis,
which `sha256 ∘ json.dumps` is designed to satisfy). -/
def compute_signature {σ : Type} (hash : List SigEntry → σ) (cat : List (String × DatasetCfg))
    (files : FileSys) : σ :=
  hash (sigPayload cat files)

/-- Comma-join used for `', '.join(...)` in document texts. -/
def joinComma : List String → String
  | [] => ""
  | [s] => s
  | s :: t => s ++ ", " ++ joinComma t

/-- First line of `column_notes` containing the column name as a
substring, stripped; empty when none matches. -/
def firstNote (notes col : String) : String :=
  match (notes.splitOn "\n").find? (fun line => strContains line col) with
  | some line => line.trim
  | none => ""

/-- First-occurrence deduplication, as `Series.unique` on an object
column. -/
def uniqueValsAux (seen : List Cell) : List Cell → List Cell
  | [] => []
  | c :: t => if c ∈ seen then uniqueValsAux seen t else c :: uniqueValsAux (c :: seen) t

/-- `df[col].dropna().unique()` in appearance order. -/
def uniqueVals (l : List Cell) : List Cell :=
  uniqueValsAux [] (l.filter (fun c => c ≠ Cell.null))

/-- Cells of a table column by name (columns produced by `read_csv` are
unique). -/
def colCells (t : Table) (col : String) : List Cell :=
  match t.cols.findIdx? (fun c => c == col) with
  | some i => t.rows.map (fun r => cellAt r i)
  | none => []

/-- The dataset-level document of `_build_index`. -/
def datasetDoc (n : String) (cfg : DatasetCfg) (t : Table) : Doc :=
  ⟨"dataset::" ++ n,
   "DATASET: " ++ n ++ "\nDESCRIPTION: " ++ cfg.description ++ "\nCOLUMNS: " ++ joinComma t.cols,
   "dataset", n, ""⟩

/-- The column-level document of `_build_index`: matching note line plus
up to 5 distinct non-null example values. -/
def columnDoc (n : String) (cfg : DatasetCfg) (t : Table) (col : String) : Doc :=
  let values := (uniqueVals (colCells t col)).take 5
  ⟨"column::" ++ n ++ "::" ++ col,
   "DATASET: " ++ n ++ "\nCOLUMN: " ++ col ++ "\nNOTE: " ++ firstNote cfg.column_notes col ++
     "\nEXAMPLE_VALUES: " ++ joinComma (values.map cellStr),
   "column", n, col⟩

/-- `SemanticIndex._build_index`: one dataset document and one document
per column, for every dataset whose file exists, in catalog iteration
order. -/
def buildDocs (cat : List (String × DatasetCfg)) (files : FileSys) : List Doc :=
  (cat.map (fun nc =>
    match files nc.2.path with
    | none => []
    | some ft => datasetDoc nc.1 nc.2 ft.2 :: ft.2.cols.map (columnDoc nc.1 nc.2 ft.2))).flatten

/-- `collection.count()`: the persisted documents plus the meta document
when present. -/
def collCount {σ : Type} (c : Collection σ) : Nat :=
  c.docs.length + (match c.meta with | some _ => 1 | none => 0)

/-- `SemanticIndex._ensure_index_is_up_to_date`, run by `__init__` before
any retrieval: empty collection → build and store the signature; missing
stored signature → rebuild; stored ≠ current → delete everything and
rebuild; otherwise reuse.  The boolean reports whether documents were
(re-)embedded. -/
def ensure_index_is_up_to_date {σ : Type} [DecidableEq σ] (hash : List SigEntry → σ)
    (cat : List (String × DatasetCfg)) (files : FileSys) (c : Collection σ) :
    Collection σ × Bool :=
  let sig := compute_signature hash cat files
  let fresh : Collection σ := ⟨buildDocs cat files, some sig⟩
  if collCount c = 0 then (fresh, true)
  else
    match c.meta with
    | none => (fresh, true)
    | some stored => if stored = sig then (c, false) else (fresh, true)

/-- `SemanticIndex.__init__` on a persisted collection: computes the
current signature and ensures the index is up to date before any
`retrieve` is served. -/
def semantic_index_init {σ : Type} [DecidableEq σ] (hash : List SigEntry → σ)
    (cat : List (String × DatasetCfg)) (files : FileSys) (persisted : Collection σ) :
    Collection σ × Bool :=
  ensure_index_is_up_to_date hash cat files persisted

/-- `SemanticIndex.retrieve`: the embedding-similarity ranking is the
external embedding model, abstracted as `rank`; the collection only
supplies the documents, of which the top `top_k` are returned. -/
def retrieve {σ : Type} (c : Collection σ) (rank : List Doc → List Doc) (top_k : Nat) : List Doc :=
  (rank c.docs).take top_k

/-! ## Statement-side helpers and concrete fixtures -/

/-- Totalized comparison: the boolean mask entry when the comparison is
defined, `false` otherwise (only used under a definedness hypothesis). -/
def pyCompareD (c : Cell) (op : String) (v : Json) : Bool :=
  match pyCompare c op v with
  | .ok b => b
  | .error _ => false

/-- Definedness of one comparison: `true` iff `pyCompare` does not raise. -/
def pyCompareOk (c : Cell) (op : String) (v : Json) : Bool :=
  match pyCompare c op v with
  | .ok _ => true
  | .error _ => false

/-- The boolean mask of one filter on one row, mirroring the branch
structure of `applyOneFilter`: a filter whose column is unknown (or whose
op matches no branch) contributes `true` (it is skipped). -/
def filterPred (cols : List String) (f : Json) (row : List Cell) : Bool :=
  match f with
  | .obj fs =>
    match (jsonLookup fs "column").getD .null with
    | .str c =>
      match cols.findIdx? (fun c2 => c2 == c) with
      | some i =>
        match (jsonLookup fs "op").getD .null with
        | .str o =>
          if filterOps.contains o then
            pyCompareD (cellAt row i) o ((jsonLookup fs "value").getD .null)
          else true
        | _ => true
      | none => true
    | _ => true
  | _ => true

/-- Definedness of one filter on one row: `true` iff evaluating the
filter's comparison on this row cannot raise. -/
def filterRowOk (cols : List String) (f : Json) (row : List Cell) : Bool :=
  match f with
  | .obj fs =>
    match (jsonLookup fs "column").getD .null with
    | .str c =>
      match cols.findIdx? (fun c2 => c2 == c) with
      | some i =>
        match (jsonLookup fs "op").getD .null with
        | .str o =>
          if filterOps.contains o then
            pyCompareOk (cellAt row i) o ((jsonLookup fs "value").getD .null)
          else true
        | _ => true
      | none => true
    | _ => true
  | _ => true

/-- Folding the results-dict insertions of the metric loop. -/
def foldInsert (acc : List (PyKey × MResult)) (krs : List (PyKey × MResult)) :
    List (PyKey × MResult) :=
  krs.foldl (fun a kr => dictInsert a kr.1 kr.2) acc

/-- Value of the last entry with a given key in a key/result list
(last-writer-wins semantics of repeated dict assignment). -/
def lastVal : List (PyKey × MResult) → PyKey → Option MResult
  | [], _ => none
  | (k2, v) :: t, k =>
    match lastVal t k with
    | some r => some r
    | none => if k2 = k then some v else none

/-- First-of-two option choice (`Option.orElse` without the thunk). -/
def oElse {α : Type} : Option α → Option α → Option α
  | some a, _ => some a
  | none, b => b

/-- A metric object of a Query Plan with all four required fields. -/
def mkMetric (name ds col agg : String) (filters : Json) : Json :=
  .obj [("name", .str name), ("dataset", .str ds), ("column", .str col),
        ("agg", .str agg), ("filters", filters)]

/-- Fixture: the table of §8's aggregation-correctness scenario, column
`value` holding `[10, 20, "x", null, 30]`. -/
def c4Tables : List (String × Table) :=
  [("water", ⟨["value"], [[.num 10], [.num 20], [.str "x"], [.null], [.num 30]]⟩)]

/-- Fixture: the `value > 15` filter of that scenario. -/
def c4Filter : Json :=
  .obj [("column", .str "value"), ("op", .str ">"), ("value", .num 15)]

/-- Fixture: the sum plan of the scenario. -/
def c4PlanSum : Json :=
  .obj [("time_scope", .obj [("type", .str "all")]),
        ("metrics", .arr [mkMetric "m_sum" "water" "value" "sum" (.arr [c4Filter])])]

/-- Fixture: the mean plan of the scenario. -/
def c4PlanMean : Json :=
  .obj [("time_scope", .obj [("type", .str "all")]),
        ("metrics", .arr [mkMetric "m_mean" "water" "value" "mean" (.arr [c4Filter])])]

/-- Fixture: a one-dataset table store for the facade claim. -/
def c2Tables : List (String × Table) :=
  [("d", ⟨["v"], [[.num 1]]⟩)]

/-- Fixture: a parseable model response whose single metric lacks every
required field. -/
def c2Plan : Json := .obj [("metrics", .arr [.obj []])]

/-- Fixture: a two-metric plan whose first metric names an unknown dataset
and whose second metric carries a type-incompatible filter. -/
def c3Tables : List (String × Table) :=
  [("d", ⟨["v"], [[.num 1], [.num 2]]⟩)]

/-- Fixture: filter comparing the numeric column `v` against a string. -/
def c3BadFilter : Json :=
  .obj [("column", .str "v"), ("op", .str ">"), ("value", .str "s")]

/-- Fixture: the plan of the executor-isolation counterexample. -/
def c3Plan : Json :=
  .obj [("time_scope", .obj [("type", .str "all")]),
        ("metrics", .arr [mkMetric "a" "nope" "v" "sum" (.arr []),
                          mkMetric "b" "d" "v" "sum" (.arr [c3BadFilter])])]

/-- Fixture: the date table of §8's time-scope scenario. -/
def c5Table : Table :=
  ⟨["obs_date", "v"],
   [[.str "2020-01-05", .num 1], [.str "2019-12-31", .num 2], [.str "2020-11-02", .num 3]]⟩

/-- Fixture: a reversed range time scope (`start_year > end_year`). -/
def c5RangeRev : Json :=
  .obj [("type", .str "range"), ("start_year", .num 2022), ("end_year", .num 2020)]

/-- Fixture: a one-column numeric table for the filter claims. -/
def c6Table : Table := ⟨["v"], [[.num 1]]⟩

/-- Fixture: a well-formed filter whose comparison is undefined on the
numeric column (string-ordered against numbers). -/
def c6BadFilter : Json :=
  .obj [("column", .str "v"), ("op", .str "<"), ("value", .str "z")]

/-- Fixture: a two-column numeric table for the filter witness. -/
def c6wTable : Table := ⟨["v", "w"], [[.num 1, .num 5], [.num 2, .num 7]]⟩

/-- Fixture: three filters — a numeric comparison, an unknown-column
filter (skipped), and a second numeric comparison. -/
def c6wFilters : List Json :=
  [.obj [("column", .str "v"), ("op", .str ">"), ("value", .num 1)],
   .obj [("column", .str "zz"), ("op", .str "=="), ("value", .str "ghost")],
   .obj [("column", .str "w"), ("op", .str "<="), ("value", .num 7)]]

/-- Fixture: a two-dataset catalog of which only the first file exists. -/
def c9Cat : List (String × DatasetCfg) :=
  [("a", ⟨"data/a.csv", "dataset a", "- v: value"⟩),
   ("b", ⟨"data/b.csv", "dataset b", "- v: value"⟩)]

/-- Fixture: the file system where only `data/a.csv` exists. -/
def c9Files : FileSys :=
  fun p => if p == "data/a.csv" then some (1, ⟨["v"], [[.num 1]]⟩) else none

/-- Fixture: a one-dataset catalog for the cache claims. -/
def c7Cat : List (String × DatasetCfg) :=
  [("prod", ⟨"data/prod.csv", "production data", "- v: value"⟩)]

/-- Fixture: its file system with modification time 1. -/
def c7Files : FileSys :=
  fun p => if p == "data/prod.csv" then some (1, ⟨["v"], [[.num 1]]⟩) else none

/-- Fixture: the same file touched (modification time 2). -/
def c7FilesTouched : FileSys :=
  fun p => if p == "data/prod.csv" then some (2, ⟨["v"], [[.num 1]]⟩) else none

/-- Fixture: a two-dataset catalog in one iteration order. -/
def c8Cat : List (String × DatasetCfg) :=
  [("alpha", ⟨"data/alpha.csv", "alpha data", "- v: value"⟩),
   ("beta", ⟨"data/beta.csv", "beta data", "- w: value"⟩)]

/-- Fixture: the same catalog in the other iteration order. -/
def c8Cat2 : List (String × DatasetCfg) :=
  [("beta", ⟨"data/beta.csv", "beta data", "- w: value"⟩),
   ("alpha", ⟨"data/alpha.csv", "alpha data", "- v: value"⟩)]

/-- Fixture: both files exist. -/
def c8Files : FileSys :=
  fun p =>
    if p == "data/alpha.csv" then some (1, ⟨["v"], [[.num 1]]⟩)
    else if p == "data/beta.csv" then some (2, ⟨["w"], [[.num 2]]⟩)
    else none

/-- Fixture: two same-named metrics over the same column with different
aggregations. -/
def c10Metrics : List Json :=
  [mkMetric "m" "d" "v" "sum" (.arr []), mkMetric "m" "d" "v" "mean" (.arr [])]

/-! ## Helper lemmas -/

/-- An unmatched predicate yields no index. -/
theorem findIdx_beq_none {c : String} {l : List String} (h : c ∉ l) :
    l.findIdx? (fun c2 => c2 == c) = none := by
  induction l with
  | nil => rfl
  | cons a t ih =>
    have ha : a ≠ c := fun hh => h (hh ▸ List.mem_cons_self a t)
    have ht : c ∉ t := fun hh => h (List.mem_cons_of_mem a hh)
    rw [List.findIdx?_cons]
    simp [ha, ih ht]

/-! ## Claim C1 -/

/-- Claim C1 (confirmed): for every model response whose stripped text does
not parse as JSON (`parse` models `json.loads`, `none` a
`JSONDecodeError`), `_plan_query` returns exactly the no-op plan
`{time_scope: {type: "all"}, metrics: [], comparison: {type: "none",
left_metric: null, right_metric: null}}` instead of raising. -/
theorem c1_plan_fallback (parse : String → Option Json) (response : String)
    (h : parse response.trim = none) :
    plan_query parse response =
      Json.obj [("time_scope", .obj [("type", .str "all")]),
                ("metrics", .arr []),
                ("comparison", .obj [("type", .str "none"),
                                     ("left_metric", .null), ("right_metric", .null)])] := by
  unfold plan_query
  rw [h]
  rfl

/-- Witness for C1 at a concrete non-JSON response. -/
theorem c1_plan_fallback_w :
    plan_query (fun _ => none) "sorry, I cannot produce a plan" =
      Json.obj [("time_scope", .obj [("type", .str "all")]),
                ("metrics", .arr []),
                ("comparison", .obj [("type", .str "none"),
                                     ("left_metric", .null), ("right_metric", .null)])] :=
  c1_plan_fallback (fun _ => none) "sorry, I cannot produce a plan" rfl

/-! ## Claim C2 -/

/-- Claim C2 (code_bug): `answer` is claimed never to raise for any model
response, but a parseable response whose metric object lacks the required
`name` field makes `_execute_plan` evaluate `m["name"]` and the `KeyError`
propagates out of `answer`. -/
theorem c2_answer_raises :
    answer c2Tables (fun _ => some c2Plan) "What is the average of v?" (fun _ _ => "summary") =
      .error (.keyError "name") := rfl

/-! ## Claim C4 -/

/-- Claim C4 (code_bug): on the column `[10, 20, "x", null, 30]` with the
filter `value > 15`, the claim expects `sum = 50` and `mean = 25`, but
`_apply_filters` evaluates the elementwise comparison `"x" > 15`, which
raises `TypeError` before any aggregation happens, for the sum plan and
the mean plan alike. -/
theorem c4_aggregation_crash :
    execute_plan c4Tables c4PlanSum = .error (.typeError "unorderable") ∧
    execute_plan c4Tables c4PlanMean = .error (.typeError "unorderable") ∧
    (∀ res, execute_plan c4Tables c4PlanSum ≠ .ok res) := by
  refine ⟨rfl, rfl, fun res h => ?_⟩
  rw [show execute_plan c4Tables c4PlanSum = .error (.typeError "unorderable") from rfl] at h
  exact absurd h (by simp)

/-! ## Claim C5 -/

/-- Counterexample for C5: with `type = "range"` and
`start_year > end_year` the claim demands that exactly the rows whose date
string contains a year of the (empty) interval are kept, i.e. an empty
table; the source instead leaves `mask = False` and `df[False]` raises
`KeyError`. -/
theorem c5_time_scope_cex :
    apply_time_scope c5Table c5RangeRev = .error (.keyError "False") ∧
    ∀ t2, apply_time_scope c5Table c5RangeRev ≠ .ok t2 := by
  refine ⟨rfl, fun t2 h => ?_⟩
  rw [show apply_time_scope c5Table c5RangeRev = .error (.keyError "False") from rfl] at h
  exact absurd h (by simp)

/-- Claim C5 (corrected): time scoping uses the first column whose name
contains "date" case-insensitively; a `type` of "all" (also by default) or
a missing date column leaves the table unchanged; `type = "year"` keeps
exactly the rows whose date string contains the year as a substring; and
`type = "range"` — provided `start_year ≤ end_year`, the amendment forced
by the counterexample — keeps exactly the rows whose date string contains
some year of `[start_year, end_year]`. -/
theorem c5_time_scope :
    (∀ (t : Table) (fs : List (String × Json)),
        (jsonLookup fs "type").getD (.str "all") = .str "all" →
        apply_time_scope t (.obj fs) = .ok t)
  ∧ (∀ (t : Table) (fs : List (String × Json)),
        t.cols.findIdx? (fun c => strContains (strLower c) "date") = none →
        apply_time_scope t (.obj fs) = .ok t)
  ∧ (∀ (t : Table) (fs : List (String × Json)) (i : Nat) (y : Int),
        t.cols.findIdx? (fun c => strContains (strLower c) "date") = some i →
        jsonLookup fs "type" = some (.str "year") →
        jsonLookup fs "year" = some (.num (y : ℚ)) →
        apply_time_scope t (.obj fs) =
          .ok (filterRows t (fun row => strContains (cellStr (cellAt row i)) (toString y))))
  ∧ (∀ (t : Table) (fs : List (String × Json)) (i : Nat) (s e : Int),
        t.cols.findIdx? (fun c => strContains (strLower c) "date") = some i →
        jsonLookup fs "type" = some (.str "range") →
        jsonLookup fs "start_year" = some (.num (s : ℚ)) →
        jsonLookup fs "end_year" = some (.num (e : ℚ)) →
        s ≤ e →
        apply_time_scope t (.obj fs) =
          .ok (filterRows t (fun row =>
            (pyRange s e).any (fun y => strContains (cellStr (cellAt row i)) (toString y))))) := by
  refine ⟨?_, ?_, ?_, ?_⟩
  · intro t fs h
    simp only [apply_time_scope, h]
    rfl
  · intro t fs h
    simp only [apply_time_scope, h]
    cases hc : (jsonLookup fs "type").getD (.str "all") <;> simp [h]
  · intro t fs i y h1 h2 h3
    have hden : ((y : ℚ)).den = 1 := Rat.den_intCast y
    have hnum : ((y : ℚ)).num = y := Rat.num_intCast y
    simp only [apply_time_scope, h1, h2, h3, Option.getD_some]
    norm_num [pyStr, numToStr, hden, hnum]
    exact fun hcon => absurd hcon (by decide)
  · intro t fs i s e h1 h2 h3 h4 hle
    simp only [apply_time_scope, h1, h2, h3, h4, Option.getD_some]
    norm_num [pyIntCast, Rat.den_intCast, Rat.num_intCast]
    rw [if_neg (by decide), if_neg (not_lt.2 hle), if_neg (by decide)]

/-- Witness for C5 at the §8 scenario: scoping to the year 2020 keeps
exactly the two 2020 rows of the three-row table. -/
theorem c5_time_scope_w :
    apply_time_scope c5Table (.obj [("type", .str "year"), ("year", .num 2020)]) =
      .ok ⟨["obs_date", "v"], [[.str "2020-01-05", .num 1], [.str "2020-11-02", .num 3]]⟩ := by
  have h := (c5_time_scope).2.2.1 c5Table [("type", .str "year"), ("year", .num 2020)] 0 2020
    (by rfl) (by rfl) (by simp [jsonLookup])
  exact h.trans (by rfl)

/-! ## Claim C9 -/

/-- Counterexample for C9: a catalog with one existing and one missing
dataset file constructs the assistant without raising — the missing
dataset is skipped, contradicting the claim that any missing file is
fatal at startup. -/
theorem c9_missing_file_cex :
    assistant_init c9Cat c9Files = .ok [("a", ⟨["v"], [[.num 1]]⟩)] ∧
    ∀ e, assistant_init c9Cat c9Files ≠ .error e := by
  refine ⟨rfl, fun e h => ?_⟩
  rw [show assistant_init c9Cat c9Files = .ok [("a", ⟨["v"], [[.num 1]]⟩)] from rfl] at h
  exact absurd h (by simp)

/-- Claim C9 (corrected): assistant construction raises
`RuntimeError("No datasets loaded for assistant.")` only when every
cataloged dataset's file is missing; when at least one file exists,
construction succeeds with the loaded tables and each existing dataset's
(date-normalized) table is present. -/
theorem c9_missing_file :
    (∀ (cat : List (String × DatasetCfg)) (files : FileSys),
        (∀ nc ∈ cat, files nc.2.path = none) →
        assistant_init cat files = .error (.runtimeError "No datasets loaded for assistant."))
  ∧ (∀ (cat : List (String × DatasetCfg)) (files : FileSys) (n : String) (c : DatasetCfg)
        (mt : ℚ) (tb : Table),
        (n, c) ∈ cat → files c.path = some (mt, tb) →
        assistant_init cat files = .ok (loadTables cat files) ∧
          (n, normalizeTable tb) ∈ loadTables cat files) := by
  constructor
  · intro cat files h
    have hnil : loadTables cat files = [] := by
      refine List.filterMap_eq_nil_iff.2 (fun nc hnc => ?_)
      rw [h nc hnc]
      rfl
    unfold assistant_init
    rw [hnil]
    rfl
  · intro cat files n c mt tb hm hf
    have hmem : (n, normalizeTable tb) ∈ loadTables cat files := by
      refine List.mem_filterMap.2 ⟨(n, c), hm, ?_⟩
      rw [hf]
      rfl
    have hne : loadTables cat files ≠ [] := List.ne_nil_of_mem hmem
    refine ⟨?_, hmem⟩
    unfold assistant_init
    rw [if_neg (by simpa [List.isEmpty_iff] using hne)]

/-- Witness for C9: with no file present construction raises; with one
file present it succeeds and the loaded table is listed. -/
theorem c9_missing_file_w :
    assistant_init c9Cat (fun _ => none) =
      .error (.runtimeError "No datasets loaded for assistant.") ∧
    (assistant_init c9Cat c9Files = .ok (loadTables c9Cat c9Files) ∧
      ("a", normalizeTable ⟨["v"], [[.num 1]]⟩) ∈ loadTables c9Cat c9Files) := by
  have h := c9_missing_file
  exact ⟨h.1 c9Cat (fun _ => none) (fun nc _ => rfl),
         h.2 c9Cat c9Files "a" ⟨"data/a.csv", "dataset a", "- v: value"⟩ 1 ⟨["v"], [[.num 1]]⟩
           (by decide) rfl⟩

/-! ## Claim C6 -/

/-- Element-wise mask computation equals a `List.filter` when every
comparison is defined. -/
theorem filterRowsE_eq_filter (o : String) (v : Json) (i : Nat) (rows : List (List Cell))
    (h : ∀ r ∈ rows, pyCompareOk (cellAt r i) o v = true) :
    filterRowsE o v i rows = .ok (rows.filter (fun r => pyCompareD (cellAt r i) o v)) := by
  induction rows with
  | nil => rfl
  | cons r rs ih =>
    have hr := h r (List.mem_cons_self r rs)
    have hrs : ∀ x ∈ rs, pyCompareOk (cellAt x i) o v = true :=
      fun x hx => h x (List.mem_cons_of_mem r hx)
    cases hc : pyCompare (cellAt r i) o v with
    | error e => simp [pyCompareOk, hc] at hr
    | ok b => simp [filterRowsE, hc, ih hrs, List.filter_cons, pyCompareD]

/-- One filter step is the mask `filterPred` when every comparison on the
frame is defined. -/
theorem applyOneFilter_eq (t : Table) (fs : List (String × Json))
    (h : ∀ r ∈ t.rows, filterRowOk t.cols (.obj fs) r = true) :
    applyOneFilter t (.obj fs) =
      .ok ⟨t.cols, t.rows.filter (fun r => filterPred t.cols (.obj fs) r)⟩ := by
  obtain ⟨cols, rows⟩ := t
  cases hcol : (jsonLookup fs "column").getD .null with
  | str c =>
    cases hidx : cols.findIdx? (fun c2 => c2 == c) with
    | none => simp [applyOneFilter, filterPred, hcol, hidx]
    | some i =>
      cases hop : (jsonLookup fs "op").getD .null with
      | str o =>
        by_cases hco : o ∈ filterOps
        · have hall : ∀ r ∈ rows,
              pyCompareOk (cellAt r i) o ((jsonLookup fs "value").getD .null) = true := by
            intro r hr
            have hh := h r hr
            simp only [filterRowOk, hcol, hidx, hop] at hh
            simpa [hco] using hh
          simp only [applyOneFilter, hcol, hidx, hop]
          rw [filterRowsE_eq_filter _ _ _ _ hall]
          simp [filterPred, hcol, hidx, hop, hco]
        · simp [applyOneFilter, filterPred, hcol, hidx, hop, hco]
      | null => simp [applyOneFilter, filterPred, hcol, hidx, hop]
      | bool b => simp [applyOneFilter, filterPred, hcol, hidx, hop]
      | num q => simp [applyOneFilter, filterPred, hcol, hidx, hop]
      | arr es => simp [applyOneFilter, filterPred, hcol, hidx, hop]
      | obj fs2 => simp [applyOneFilter, filterPred, hcol, hidx, hop]
  | null => simp [applyOneFilter, filterPred, hcol]
  | bool b => simp [applyOneFilter, filterPred, hcol]
  | num q => simp [applyOneFilter, filterPred, hcol]
  | arr es => simp [applyOneFilter, filterPred, hcol]
  | obj fs2 => simp [applyOneFilter, filterPred, hcol]

/-- Sequential filtering computes the conjunction of the individual masks
when every comparison on the original frame is defined. -/
theorem applyFiltersL_eq (fl : List Json) (t : Table)
    (hwf : ∀ f ∈ fl, ∃ fs0, f = Json.obj fs0)
    (hok : ∀ f ∈ fl, ∀ r ∈ t.rows, filterRowOk t.cols f r = true) :
    applyFiltersL t fl =
      .ok ⟨t.cols, t.rows.filter (fun r => fl.all (fun f => filterPred t.cols f r))⟩ := by
  induction fl generalizing t with
  | nil =>
    obtain ⟨cols, rows⟩ := t
    simp [applyFiltersL]
  | cons f fl ih =>
    obtain ⟨fs0, rfl⟩ := hwf f (List.mem_cons_self f fl)
    have h0 : ∀ r ∈ t.rows, filterRowOk t.cols (Json.obj fs0) r = true :=
      hok _ (List.mem_cons_self _ fl)
    have ih' := ih ⟨t.cols, t.rows.filter (fun r => filterPred t.cols (Json.obj fs0) r)⟩
      (fun g hg => hwf g (List.mem_cons_of_mem _ hg))
      (fun g hg r hr => hok g (List.mem_cons_of_mem _ hg) r (List.mem_filter.1 hr).1)
    calc applyFiltersL t (Json.obj fs0 :: fl)
        = applyFiltersL ⟨t.cols, t.rows.filter (fun r => filterPred t.cols (Json.obj fs0) r)⟩ fl := by
          rw [show applyFiltersL t (Json.obj fs0 :: fl) =
                (match applyOneFilter t (Json.obj fs0) with
                 | .error e => .error e
                 | .ok t2 => applyFiltersL t2 fl) from rfl,
              applyOneFilter_eq t fs0 h0]
      _ = .ok ⟨t.cols, t.rows.filter
            (fun r => (Json.obj fs0 :: fl).all (fun f => filterPred t.cols f r))⟩ := by
          rw [ih']
          simp only [List.filter_filter, List.all_cons]
          refine congrArg Except.ok (congrArg (Table.mk t.cols) ?_)
          exact List.filter_congr (fun a _ => Bool.and_comm _ _)

/-- Counterexample for C6: a single well-formed filter whose value type is
incomparable with the column raises `TypeError` instead of being applied
as a boolean mask, so the unconditional claim fails. -/
theorem c6_filters_cex :
    applyFiltersL c6Table [c6BadFilter] = .error (.typeError "unorderable") ∧
    ∀ t2, applyFiltersL c6Table [c6BadFilter] ≠ .ok t2 := by
  refine ⟨rfl, fun t2 h => ?_⟩
  rw [show applyFiltersL c6Table [c6BadFilter] = .error (.typeError "unorderable") from rfl] at h
  exact absurd h (by simp)

/-- Claim C6 (corrected): a filter whose column is not a column of the
table is always silently skipped, leaving the frame unchanged; and —
provided every filter's comparison is defined on the table's rows, the
amendment forced by the counterexample — the filters of a metric are
applied in list order as boolean masks ANDed together. -/
theorem c6_filter_semantics :
    (∀ (t : Table) (fs0 : List (String × Json)) (c : String),
        (jsonLookup fs0 "column").getD .null = .str c → c ∉ t.cols →
        applyOneFilter t (.obj fs0) = .ok t)
  ∧ (∀ (t : Table) (fl : List Json),
        (∀ f ∈ fl, ∃ fs0, f = Json.obj fs0) →
        (∀ f ∈ fl, ∀ r ∈ t.rows, filterRowOk t.cols f r = true) →
        applyFiltersL t fl =
          .ok ⟨t.cols, t.rows.filter (fun r => fl.all (fun f => filterPred t.cols f r))⟩) := by
  constructor
  · intro t fs0 c hcol hmem
    simp [applyOneFilter, hcol, findIdx_beq_none hmem]
  · intro t fl hwf hok
    exact applyFiltersL_eq fl t hwf hok

/-- Witness for C6: an unknown-column filter leaves the table unchanged,
and a three-filter list (one filter skipped) computes the ANDed masks. -/
theorem c6_filter_semantics_w :
    applyOneFilter c6wTable (.obj [("column", .str "zz"), ("op", .str ">"), ("value", .num 0)]) =
      .ok c6wTable ∧
    applyFiltersL c6wTable c6wFilters = .ok ⟨["v", "w"], [[.num 2, .num 7]]⟩ := by
  have h := c6_filter_semantics
  refine ⟨h.1 c6wTable [("column", .str "zz"), ("op", .str ">"), ("value", .num 0)] "zz"
            rfl (by decide), ?_⟩
  have h2 := h.2 c6wTable c6wFilters
    (by
      intro f hf
      simp only [c6wFilters, List.mem_cons, List.not_mem_nil, or_false] at hf
      rcases hf with rfl | rfl | rfl <;> exact ⟨_, rfl⟩)
    (by decide)
  exact h2.trans (by rfl)

/-! ## Claims C3 and C10 -/

/-- Counterexample for C3: in a two-metric plan with distinct names whose
first metric references an unknown dataset, a `TypeError` raised while
filtering the second metric aborts the whole execution, so no result
mapping with two entries is produced. -/
theorem c3_isolation_cex :
    execute_plan c3Tables c3Plan = .error (.typeError "unorderable") ∧
    ∀ res, execute_plan c3Tables c3Plan ≠ .ok res := by
  refine ⟨rfl, fun res h => ?_⟩
  rw [show execute_plan c3Tables c3Plan = .error (.typeError "unorderable") from rfl] at h
  exact absurd h (by simp)

theorem dictLookup_dictInsert (a : List (PyKey × MResult)) (k : PyKey) (v : MResult) (k2 : PyKey) :
    dictLookup (dictInsert a k v) k2 = if k = k2 then some v else dictLookup a k2 := by
  induction a with
  | nil => simp [dictInsert, dictLookup]
  | cons kv t ih =>
    obtain ⟨k3, v3⟩ := kv
    by_cases h3 : k3 = k
    · subst h3
      by_cases hk : k3 = k2 <;> simp [dictInsert, dictLookup, hk]
    · by_cases hk3 : k3 = k2 <;> by_cases hk : k = k2
      · exact absurd (hk3.trans hk.symm) h3
      · subst hk3
        simp [dictInsert, dictLookup, h3, Ne.symm hk, hk]
      · subst hk
        simp [dictInsert, dictLookup, h3, hk3, ih]
      · simp [dictInsert, dictLookup, h3, hk3, hk, ih]

theorem oElse_none {α : Type} (x : Option α) : oElse x none = x := by
  cases x <;> rfl

theorem dictLookup_foldInsert (krs : List (PyKey × MResult)) :
    ∀ (acc : List (PyKey × MResult)) (k : PyKey),
      dictLookup (foldInsert acc krs) k = oElse (lastVal krs k) (dictLookup acc k) := by
  induction krs with
  | nil => intro acc k; rfl
  | cons kv rest ih =>
    intro acc k
    obtain ⟨k1, v1⟩ := kv
    have hstep : foldInsert acc ((k1, v1) :: rest) = foldInsert (dictInsert acc k1 v1) rest := rfl
    rw [hstep, ih]
    cases hl : lastVal rest k with
    | some r => simp [lastVal, hl, oElse]
    | none =>
      simp only [lastVal, hl, oElse, dictLookup_dictInsert]
      by_cases h : k1 = k <;> simp [h, oElse]

theorem keys_dictInsert_sub (a : List (PyKey × MResult)) (k : PyKey) (v : MResult) (x : PyKey)
    (h : x ∈ (dictInsert a k v).map Prod.fst) : x = k ∨ x ∈ a.map Prod.fst := by
  induction a with
  | nil => simpa [dictInsert] using h
  | cons kv t ih =>
    obtain ⟨k3, v3⟩ := kv
    by_cases h3 : k3 = k
    · subst h3
      simp only [dictInsert, ite_true, List.map_cons, List.mem_cons] at h
      rcases h with rfl | h
      · exact Or.inl rfl
      · exact Or.inr (by simp [h])
    · simp only [dictInsert, if_neg h3, List.map_cons, List.mem_cons] at h
      rcases h with rfl | h
      · exact Or.inr (by simp)
      · rcases ih h with rfl | hh
        · exact Or.inl rfl
        · exact Or.inr (by simp [hh])

theorem mem_keys_dictInsert_self (a : List (PyKey × MResult)) (k : PyKey) (v : MResult) :
    k ∈ (dictInsert a k v).map Prod.fst := by
  induction a with
  | nil => simp [dictInsert]
  | cons kv t ih =>
    obtain ⟨k3, v3⟩ := kv
    by_cases h3 : k3 = k
    · subst h3
      simp [dictInsert]
    · simp only [dictInsert, if_neg h3, List.map_cons, List.mem_cons]
      exact Or.inr ih

theorem mem_keys_dictInsert_of_mem (a : List (PyKey × MResult)) (k : PyKey) (v : MResult)
    (x : PyKey) (h : x ∈ a.map Prod.fst) : x ∈ (dictInsert a k v).map Prod.fst := by
  induction a with
  | nil => simp at h
  | cons kv t ih =>
    obtain ⟨k3, v3⟩ := kv
    simp only [List.map_cons, List.mem_cons] at h
    by_cases h3 : k3 = k
    · subst h3
      simp only [dictInsert, ite_true, List.map_cons, List.mem_cons]
      exact h
    · simp only [dictInsert, if_neg h3, List.map_cons, List.mem_cons]
      rcases h with rfl | h
      · exact Or.inl rfl
      · exact Or.inr (ih h)

theorem nodup_keys_dictInsert (a : List (PyKey × MResult)) (k : PyKey) (v : MResult)
    (h : (a.map Prod.fst).Nodup) : ((dictInsert a k v).map Prod.fst).Nodup := by
  induction a with
  | nil => simp [dictInsert]
  | cons kv t ih =>
    obtain ⟨k3, v3⟩ := kv
    simp only [List.map_cons, List.nodup_cons] at h
    by_cases h3 : k3 = k
    · subst h3
      simp only [dictInsert, ite_true, List.map_cons, List.nodup_cons]
      exact h
    · simp only [dictInsert, if_neg h3, List.map_cons, List.nodup_cons]
      refine ⟨fun hm => ?_, ih h.2⟩
      rcases keys_dictInsert_sub t k v k3 hm with rfl | hh
      · exact h3 rfl
      · exact h.1 hh

theorem length_dictInsert_of_mem (a : List (PyKey × MResult)) (k : PyKey) (v : MResult)
    (h : k ∈ a.map Prod.fst) : (dictInsert a k v).length = a.length := by
  induction a with
  | nil => simp at h
  | cons kv t ih =>
    obtain ⟨k3, v3⟩ := kv
    by_cases h3 : k3 = k
    · simp [dictInsert, h3]
    · simp only [List.map_cons, List.mem_cons] at h
      rcases h with rfl | h
      · exact absurd rfl h3
      · simp [dictInsert, h3, ih h]

theorem length_dictInsert_of_not_mem (a : List (PyKey × MResult)) (k : PyKey) (v : MResult)
    (h : k ∉ a.map Prod.fst) : (dictInsert a k v).length = a.length + 1 := by
  induction a with
  | nil => rfl
  | cons kv t ih =>
    obtain ⟨k3, v3⟩ := kv
    have h3 : k3 ≠ k := fun hh => h (by simp [hh])
    have ht : k ∉ t.map Prod.fst := fun hh => h (by simp [hh])
    simp [dictInsert, h3, ih ht]

theorem length_foldInsert_le (krs : List (PyKey × MResult)) :
    ∀ acc, (foldInsert acc krs).length ≤ acc.length + krs.length := by
  induction krs with
  | nil => intro acc; simp [foldInsert]
  | cons kv rest ih =>
    intro acc
    obtain ⟨k, v⟩ := kv
    have hstep : foldInsert acc ((k, v) :: rest) = foldInsert (dictInsert acc k v) rest := rfl
    rw [hstep]
    by_cases hm : k ∈ acc.map Prod.fst
    · have h1 := ih (dictInsert acc k v)
      rw [length_dictInsert_of_mem acc k v hm] at h1
      simp only [List.length_cons]
      omega
    · have h1 := ih (dictInsert acc k v)
      rw [length_dictInsert_of_not_mem acc k v hm] at h1
      simp only [List.length_cons]
      omega

theorem length_foldInsert_lt (krs : List (PyKey × MResult)) :
    ∀ acc, ((∃ kr ∈ krs, kr.1 ∈ acc.map Prod.fst) ∨ ¬ (krs.map Prod.fst).Nodup) →
    (foldInsert acc krs).length < acc.length + krs.length := by
  induction krs with
  | nil =>
    intro acc h
    rcases h with ⟨kr, hm, _⟩ | h
    · simp at hm
    · simp at h
  | cons kv rest ih =>
    intro acc h
    obtain ⟨k, v⟩ := kv
    have hstep : foldInsert acc ((k, v) :: rest) = foldInsert (dictInsert acc k v) rest := rfl
    rw [hstep]
    by_cases hm : k ∈ acc.map Prod.fst
    · have h1 := length_foldInsert_le rest (dictInsert acc k v)
      rw [length_dictInsert_of_mem acc k v hm] at h1
      simp only [List.length_cons]
      omega
    · have hdisj : (∃ kr ∈ rest, kr.1 ∈ (dictInsert acc k v).map Prod.fst) ∨
          ¬ (rest.map Prod.fst).Nodup := by
        rcases h with ⟨kr, hmem, hkey⟩ | hnd
        · rcases List.mem_cons.1 hmem with rfl | hmem2
          · exact absurd hkey hm
          · exact Or.inl ⟨kr, hmem2, mem_keys_dictInsert_of_mem acc k v kr.1 hkey⟩
        · simp only [List.map_cons, List.nodup_cons, not_and_or] at hnd
          rcases hnd with hk | hnd2
          · push_neg at hk
            obtain ⟨kr, hmem2, hkeq⟩ := List.mem_map.1 hk
            exact Or.inl ⟨kr, hmem2, hkeq ▸ mem_keys_dictInsert_self acc k v⟩
          · exact Or.inr hnd2
      have h1 := ih (dictInsert acc k v) hdisj
      rw [length_dictInsert_of_not_mem acc k v hm] at h1
      simp only [List.length_cons]
      omega

theorem nodup_keys_foldInsert (krs : List (PyKey × MResult)) :
    ∀ acc, ((acc.map Prod.fst).Nodup) → (((foldInsert acc krs).map Prod.fst).Nodup) := by
  induction krs with
  | nil => intro acc h; exact h
  | cons kv rest ih =>
    intro acc h
    obtain ⟨k, v⟩ := kv
    exact ih (dictInsert acc k v) (nodup_keys_dictInsert acc k v h)

theorem runMetrics_forall2 {T : List (String × Table)} {ts : Json}
    {ms : List Json} {krs : List (PyKey × MResult)}
    (h : List.Forall₂ (fun m kr => execMetric T ts m = .ok kr) ms krs) :
    ∀ acc, runMetrics T ts ms acc = .ok (foldInsert acc krs) := by
  induction h with
  | nil => intro acc; rfl
  | cons hh _ ih =>
    intro acc
    simp only [runMetrics, hh, ih]
    rfl

theorem dictInsert_append (a : List (PyKey × MResult)) (k : PyKey) (v : MResult)
    (h : k ∉ a.map Prod.fst) : dictInsert a k v = a ++ [(k, v)] := by
  induction a with
  | nil => rfl
  | cons kv t ih =>
    have hne : kv.1 ≠ k := fun hh => h (by simp [hh])
    have ht : k ∉ t.map Prod.fst := fun hh => h (by simp [hh])
    obtain ⟨k2, v2⟩ := kv
    simp only [dictInsert, if_neg (by simpa using hne), ih ht, List.cons_append]

theorem foldInsert_of_nodup (krs : List (PyKey × MResult)) :
    ∀ acc, (∀ kr ∈ krs, kr.1 ∉ acc.map Prod.fst) → (krs.map Prod.fst).Nodup →
    foldInsert acc krs = acc ++ krs := by
  induction krs with
  | nil => intro acc _ _; simp [foldInsert]
  | cons kv rest ih =>
    intro acc hfresh hnd
    obtain ⟨k, v⟩ := kv
    have h1 : k ∉ acc.map Prod.fst := hfresh (k, v) (List.mem_cons_self _ _)
    have hstep : foldInsert acc ((k, v) :: rest) = foldInsert (acc ++ [(k, v)]) rest := by
      simp only [foldInsert, List.foldl_cons, dictInsert_append acc k v h1]
    rw [hstep, ih (acc ++ [(k, v)])]
    · simp
    · intro kr hkr
      simp only [List.map_append, List.mem_append, List.map_cons, List.map_nil,
        List.mem_singleton]
      rintro (hacc | hk)
      · exact hfresh kr (List.mem_cons_of_mem _ hkr) hacc
      · have : k ∈ rest.map Prod.fst := by
          rw [← hk]
          exact List.mem_map_of_mem Prod.fst hkr
        simp only [List.map_cons, List.nodup_cons] at hnd
        exact hnd.1 this
    · simp only [List.map_cons, List.nodup_cons] at hnd
      exact hnd.2

/-- Claim C3 (corrected): the executor records `{error: "Unknown dataset
<name>"}` / `{error: "Unknown column <name> in <dataset>"}` for a metric
referencing an unknown dataset or column, and — provided every metric of
the plan executes without a Python exception (the amendment forced by the
counterexample) — all N distinct-named metrics are processed and the
result mapping has exactly N entries. -/
theorem c3_executor_isolation :
    (∀ (T : List (String × Table)) (ts : Json) (name ds col agg : String) (flt : Json),
        tlookup T ds = none →
        execMetric T ts (mkMetric name ds col agg flt) =
          .ok (.kstr name, .err ("Unknown dataset " ++ ds)))
  ∧ (∀ (T : List (String × Table)) (ts : Json) (name ds col agg : String) (flt : Json)
        (df df1 df2 : Table),
        tlookup T ds = some df →
        apply_time_scope df ts = .ok df1 →
        apply_filters df1 flt = .ok df2 →
        col ∉ df2.cols →
        execMetric T ts (mkMetric name ds col agg flt) =
          .ok (.kstr name, .err ("Unknown column " ++ col ++ " in " ++ ds)))
  ∧ (∀ (T : List (String × Table)) (ts : Json) (ms : List Json)
        (krs : List (PyKey × MResult)),
        List.Forall₂ (fun m kr => execMetric T ts m = .ok kr) ms krs →
        (krs.map Prod.fst).Nodup →
        runMetrics T ts ms [] = .ok krs ∧ krs.length = ms.length) := by
  refine ⟨?_, ?_, ?_⟩
  · intro T ts name ds col agg flt h
    simp [execMetric, mkMetric, dictGetItem, dictGetD, jsonLookup, toKey, h]
  · intro T ts name ds col agg flt df df1 df2 h h1 h2 h3
    simp [execMetric, mkMetric, dictGetItem, dictGetD, jsonLookup, toKey, h, h1, h2,
          findIdx_beq_none h3]
  · intro T ts ms krs h hnd
    refine ⟨?_, h.length_eq.symm⟩
    rw [runMetrics_forall2 h []]
    rw [foldInsert_of_nodup krs [] (by simp) hnd]
    rfl

/-- Witness for C3: a two-metric plan whose first metric names an unknown
dataset still computes the second metric, with two entries recorded. -/
theorem c3_executor_isolation_w :
    execMetric c3Tables (.obj [("type", .str "all")]) (mkMetric "a" "nope" "v" "sum" (.arr [])) =
      .ok (.kstr "a", .err "Unknown dataset nope") ∧
    runMetrics c3Tables (.obj [("type", .str "all")])
        [mkMetric "a" "nope" "v" "sum" (.arr []), mkMetric "b" "d" "v" "sum" (.arr [])] [] =
      .ok [(.kstr "a", .err "Unknown dataset nope"),
           (.kstr "b", .val 3 "d" "v" "sum" (.arr []))] ∧
    ([(.kstr "a", .err "Unknown dataset nope"),
      ((.kstr "b" : PyKey), MResult.val 3 "d" "v" "sum" (.arr []))] : List (PyKey × MResult)).length = 2 := by
  have h := c3_executor_isolation
  refine ⟨h.1 c3Tables (.obj [("type", .str "all")]) "a" "nope" "v" "sum" (.arr []) rfl, ?_, rfl⟩
  have h3 := (h.2.2 c3Tables (.obj [("type", .str "all")])
    [mkMetric "a" "nope" "v" "sum" (.arr []), mkMetric "b" "d" "v" "sum" (.arr [])]
    [(.kstr "a", .err "Unknown dataset nope"), (.kstr "b", .val 3 "d" "v" "sum" (.arr []))]
    (List.Forall₂.cons rfl (List.Forall₂.cons
      (by
        simp [execMetric, mkMetric, dictGetItem, dictGetD, jsonLookup, toKey, tlookup,
          apply_time_scope, apply_filters, pyIter, applyFiltersL, c3Tables, cellAt, toNumeric]
        norm_num [sumQ])
      List.Forall₂.nil))
    (by decide)).1
  exact h3

/-- Claim C10 (confirmed): results are keyed by metric name with
last-writer-wins; a plan whose metrics repeat a name yields a mapping with
one entry per distinct name, each holding the result of the last metric
with that name in plan order, hence strictly fewer entries than metrics. -/
theorem c10_last_writer_wins (T : List (String × Table)) (ts : Json) (ms : List Json)
    (krs : List (PyKey × MResult))
    (h : List.Forall₂ (fun m kr => execMetric T ts m = .ok kr) ms krs)
    (hdup : ¬ (krs.map Prod.fst).Nodup) :
    runMetrics T ts ms [] = .ok (foldInsert [] krs) ∧
    ((foldInsert [] krs).map Prod.fst).Nodup ∧
    (∀ k, dictLookup (foldInsert [] krs) k = lastVal krs k) ∧
    (foldInsert [] krs).length < ms.length := by
  refine ⟨runMetrics_forall2 h [], nodup_keys_foldInsert krs [] (by simp), ?_, ?_⟩
  · intro k
    rw [dictLookup_foldInsert krs [] k]
    exact oElse_none _
  · have := length_foldInsert_lt krs [] (Or.inr hdup)
    rw [h.length_eq]
    simpa using this

/-- Witness for C10: two metrics named "m" (sum then mean) produce a
single entry holding the mean, 1 < 2 entries. -/
theorem c10_last_writer_wins_w :
    runMetrics c3Tables (.obj [("type", .str "all")]) c10Metrics [] =
      .ok [(.kstr "m", .val (3 / 2) "d" "v" "mean" (.arr []))] ∧
    dictLookup [((.kstr "m" : PyKey), MResult.val (3 / 2) "d" "v" "mean" (.arr []))] (.kstr "m") =
      some (.val (3 / 2) "d" "v" "mean" (.arr [])) ∧
    ([((.kstr "m" : PyKey), MResult.val (3 / 2) "d" "v" "mean" (.arr []))] : List (PyKey × MResult)).length < 2 := by
  have h := c10_last_writer_wins c3Tables (.obj [("type", .str "all")]) c10Metrics
    [(.kstr "m", .val 3 "d" "v" "sum" (.arr [])), (.kstr "m", .val (3 / 2) "d" "v" "mean" (.arr []))]
    (List.Forall₂.cons
      (by
        simp [execMetric, mkMetric, dictGetItem, dictGetD, jsonLookup, toKey, tlookup,
          apply_time_scope, apply_filters, pyIter, applyFiltersL, c3Tables, cellAt, toNumeric]
        norm_num [sumQ])
      (List.Forall₂.cons
        (by
          simp [execMetric, mkMetric, dictGetItem, dictGetD, jsonLookup, toKey, tlookup,
            apply_time_scope, apply_filters, pyIter, applyFiltersL, c3Tables, cellAt, toNumeric]
          norm_num [sumQ])
        List.Forall₂.nil))
    (by decide)
  refine ⟨h.1.trans (by rfl), ?_, by decide⟩
  have h2 := h.2.2.1 (.kstr "m")
  exact h2.trans (by rfl)

/-! ## Claims C7 and C8 -/

/-- Insertion into a sorted catalog permutes a cons. -/
theorem insertSorted_perm (x : String × DatasetCfg) (l : List (String × DatasetCfg)) :
    (insertSorted x l).Perm (x :: l) := by
  induction l with
  | nil => exact List.Perm.refl _
  | cons y t ih =>
    by_cases h : x.1 ≤ y.1
    · simp [insertSorted, h]
    · simp only [insertSorted, if_neg h]
      exact (ih.cons y).trans (List.Perm.swap x y t)

/-- `sorted(datasets_config.items())` is a permutation of the catalog. -/
theorem sortByName_perm (l : List (String × DatasetCfg)) : (sortByName l).Perm l := by
  induction l with
  | nil => exact List.Perm.refl _
  | cons x t ih => exact (insertSorted_perm x (sortByName t)).trans (ih.cons x)

/-- Insertion preserves name-sortedness. -/
theorem insertSorted_sorted (x : String × DatasetCfg) (l : List (String × DatasetCfg))
    (h : List.Pairwise (fun a b => a.1 ≤ b.1) l) :
    List.Pairwise (fun a b => a.1 ≤ b.1) (insertSorted x l) := by
  induction l with
  | nil => simp [insertSorted]
  | cons y t ih =>
    rw [List.pairwise_cons] at h
    by_cases hx : x.1 ≤ y.1
    · simp only [insertSorted, if_pos hx, List.pairwise_cons]
      refine ⟨?_, h.1, h.2⟩
      intro z hz
      rcases List.mem_cons.1 hz with rfl | hz2
      · exact hx
      · exact le_trans hx (h.1 z hz2)
    · simp only [insertSorted, if_neg hx, List.pairwise_cons]
      refine ⟨?_, ih h.2⟩
      intro z hz
      have hz3 := (insertSorted_perm x t).mem_iff.1 hz
      rcases List.mem_cons.1 hz3 with rfl | hz4
      · exact le_of_not_le hx
      · exact h.1 z hz4

/-- The sorted catalog is name-sorted. -/
theorem sortByName_sorted (l : List (String × DatasetCfg)) :
    List.Pairwise (fun a b => a.1 ≤ b.1) (sortByName l) := by
  induction l with
  | nil => simp [sortByName]
  | cons x t ih => exact insertSorted_sorted x (sortByName t) ih

/-- Two name-sorted permutations of a catalog with distinct names are
equal. -/
theorem eq_of_perm_sorted_nodup :
    ∀ (l1 l2 : List (String × DatasetCfg)), l1.Perm l2 →
      List.Pairwise (fun a b => a.1 ≤ b.1) l1 →
      List.Pairwise (fun a b => a.1 ≤ b.1) l2 →
      (l1.map Prod.fst).Nodup → l1 = l2 := by
  intro l1
  induction l1 with
  | nil =>
    intro l2 hp _ _ _
    exact (hp.symm.eq_nil).symm ▸ rfl
  | cons a t1 ih =>
    intro l2 hp hs1 hs2 hnd
    cases l2 with
    | nil => exact absurd hp.eq_nil (by simp)
    | cons b t2 =>
      rw [List.pairwise_cons] at hs1 hs2
      have hab : a = b := by
        have hmem_b : b ∈ a :: t1 := hp.symm.subset (List.mem_cons_self b t2)
        have hmem_a : a ∈ b :: t2 := hp.subset (List.mem_cons_self a t1)
        rcases List.mem_cons.1 hmem_b with rfl | hbt1
        · rfl
        rcases List.mem_cons.1 hmem_a with heq | hat2
        · exact heq
        have h1 : a.1 ≤ b.1 := hs1.1 b hbt1
        have h2 : b.1 ≤ a.1 := hs2.1 a hat2
        have hnames : a.1 = b.1 := le_antisymm h1 h2
        exfalso
        simp only [List.map_cons, List.nodup_cons] at hnd
        exact hnd.1 (hnames ▸ List.mem_map_of_mem Prod.fst hbt1)
      subst hab
      have htails := hp.cons_inv
      have : t1 = t2 := by
        apply ih t2 htails hs1.2 hs2.2
        simp only [List.map_cons, List.nodup_cons] at hnd
        exact hnd.2
      rw [this]

/-- Sorting is invariant under catalog iteration order. -/
theorem sortByName_eq_of_perm (cat cat2 : List (String × DatasetCfg))
    (hp : cat.Perm cat2) (hnd : (cat.map Prod.fst).Nodup) :
    sortByName cat = sortByName cat2 := by
  refine eq_of_perm_sorted_nodup _ _
    ((sortByName_perm cat).trans (hp.trans (sortByName_perm cat2).symm))
    (sortByName_sorted cat) (sortByName_sorted cat2) ?_
  exact (((sortByName_perm cat).map Prod.fst).nodup_iff).2 hnd

/-- With distinct dataset names, the payload entry found for a name is the
record of that dataset. -/
theorem find_sigEntry (files : FileSys) :
    ∀ (l : List (String × DatasetCfg)), ((l.map Prod.fst).Nodup) →
      ∀ (n : String) (c : DatasetCfg), (n, c) ∈ l →
      (l.map (sigEntryOf files)).find? (fun e2 => e2.dataset_name == n) =
        some (sigEntryOf files (n, c)) := by
  intro l
  induction l with
  | nil => intro _ n c hm; simp at hm
  | cons md t ih =>
    intro hnd n c hm
    obtain ⟨m, d⟩ := md
    simp only [List.map_cons, List.nodup_cons] at hnd
    by_cases hmn : m = n
    · subst hmn
      have hcd : c = d := by
        rcases List.mem_cons.1 hm with heq | htail
        · exact ((Prod.mk.injEq _ _ _ _ ▸ heq.symm).2 : d = c).symm
        · exact absurd (List.mem_map_of_mem Prod.fst htail) hnd.1
      subst hcd
      rw [List.map_cons, List.find?_cons_of_pos]
      simp [sigEntryOf]
    · rw [List.map_cons, List.find?_cons_of_neg]
      · refine ih hnd.2 n c ?_
        rcases List.mem_cons.1 hm with heq | htail
        · exact absurd (congrArg Prod.fst heq).symm (by simpa using hmn)
        · exact htail
      · simp [sigEntryOf, hmn]

/-- Claim C7 (confirmed): if the stored signature differs from the one
freshly computed from the current catalog (also when none is stored), the
whole collection is replaced by a fresh build carrying the current
signature before any retrieval is served; and — with the SHA-256 of the
serialized payload modelled as an injective encoding — changing any
dataset's file modification time, description or column notes changes the
computed signature. -/
theorem c7_invalidation {σ : Type} [DecidableEq σ] (hash : List SigEntry → σ)
    (hinj : Function.Injective hash) :
    (∀ (cat : List (String × DatasetCfg)) (files : FileSys) (c : Collection σ),
        c.meta ≠ some (compute_signature hash cat files) →
        semantic_index_init hash cat files c =
          (⟨buildDocs cat files, some (compute_signature hash cat files)⟩, true))
  ∧ (∀ (cat cat2 : List (String × DatasetCfg)) (files files2 : FileSys)
        (n : String) (c c2 : DatasetCfg),
        ((cat.map Prod.fst).Nodup) → ((cat2.map Prod.fst).Nodup) →
        (n, c) ∈ cat → (n, c2) ∈ cat2 →
        ((files c.path).map Prod.fst ≠ (files2 c2.path).map Prod.fst ∨
         c.description ≠ c2.description ∨ c.column_notes ≠ c2.column_notes) →
        compute_signature hash cat files ≠ compute_signature hash cat2 files2) := by
  constructor
  · intro cat files c hmeta
    obtain ⟨docs, meta⟩ := c
    unfold semantic_index_init ensure_index_is_up_to_date
    by_cases hc : collCount (⟨docs, meta⟩ : Collection σ) = 0
    · simp [hc]
    · cases meta with
      | none => simp [hc]
      | some s =>
        have hs : s ≠ compute_signature hash cat files := fun hh => hmeta (by rw [hh])
        simp [hc, hs]
  · intro cat cat2 files files2 n c c2 hnd hnd2 hm hm2 hdiff heq
    have hpay : sigPayload cat files = sigPayload cat2 files2 := hinj heq
    have hf1 := find_sigEntry files (sortByName cat)
      ((((sortByName_perm cat).map Prod.fst).nodup_iff).2 hnd) n c
      ((sortByName_perm cat).mem_iff.2 hm)
    have hf2 := find_sigEntry files2 (sortByName cat2)
      ((((sortByName_perm cat2).map Prod.fst).nodup_iff).2 hnd2) n c2
      ((sortByName_perm cat2).mem_iff.2 hm2)
    have hent : sigEntryOf files (n, c) = sigEntryOf files2 (n, c2) := by
      have h1 : (sigPayload cat files).find? (fun e2 => e2.dataset_name == n) =
          some (sigEntryOf files (n, c)) := hf1
      have h2 : (sigPayload cat2 files2).find? (fun e2 => e2.dataset_name == n) =
          some (sigEntryOf files2 (n, c2)) := hf2
      rw [hpay, h2] at h1
      exact (Option.some.injEq _ _ ▸ h1).symm
    simp only [sigEntryOf, SigEntry.mk.injEq] at hent
    rcases hdiff with hd | hd | hd
    · exact hd hent.2.2.1
    · exact hd hent.2.2.2.1
    · exact hd hent.2.2.2.2

/-- Witness for C7: a stale stored signature triggers a full rebuild, and
touching the dataset file (mtime 1 → 2) changes the signature. -/
theorem c7_invalidation_w :
    semantic_index_init (fun p => p) c7Cat c7Files ⟨[], some []⟩ =
      (⟨buildDocs c7Cat c7Files,
        some (compute_signature (fun p => p) c7Cat c7Files)⟩, true) ∧
    compute_signature (fun p => p) c7Cat c7Files ≠
      compute_signature (fun p => p) c7Cat c7FilesTouched := by
  have h := @c7_invalidation (List SigEntry) _ (fun p => p) (fun a b hh => hh)
  refine ⟨h.1 c7Cat c7Files ⟨[], some []⟩ (by decide), ?_⟩
  exact h.2 c7Cat c7Cat c7Files c7FilesTouched "prod"
    ⟨"data/prod.csv", "production data", "- v: value"⟩
    ⟨"data/prod.csv", "production data", "- v: value"⟩
    (by decide) (by decide) (by decide) (by decide) (Or.inl (by decide))

/-- Claim C8 (confirmed): over an unchanged catalog — same datasets and
file modification times, in any iteration order — the computed signature
is the same both times, and the second initialization reuses the persisted
collection with no re-embedding (the build flag is `false`). -/
theorem c8_idempotence {σ : Type} [DecidableEq σ] (hash : List SigEntry → σ)
    (cat cat2 : List (String × DatasetCfg)) (files : FileSys)
    (hp : cat.Perm cat2) (hnd : (cat.map Prod.fst).Nodup) :
    compute_signature hash cat files = compute_signature hash cat2 files ∧
    semantic_index_init hash cat2 files
        (semantic_index_init hash cat files ⟨[], none⟩).1 =
      ((semantic_index_init hash cat files ⟨[], none⟩).1, false) := by
  have hsig : compute_signature hash cat files = compute_signature hash cat2 files := by
    unfold compute_signature sigPayload
    rw [sortByName_eq_of_perm cat cat2 hp hnd]
  refine ⟨hsig, ?_⟩
  have hfirst : (semantic_index_init hash cat files (⟨[], none⟩ : Collection σ)).1 =
      ⟨buildDocs cat files, some (compute_signature hash cat files)⟩ := rfl
  rw [hfirst]
  unfold semantic_index_init ensure_index_is_up_to_date
  have hcount : ∀ s : σ, collCount (⟨buildDocs cat files, some s⟩ : Collection σ) ≠ 0 :=
    fun s => by simp [collCount]
  simp [hcount, hsig]

/-- Witness for C8: the two iteration orders of a two-dataset catalog give
equal signatures, and the second initialization returns the persisted
collection unchanged with the build flag `false`. -/
theorem c8_idempotence_w :
    compute_signature (fun p => p) c8Cat c8Files =
      compute_signature (fun p => p) c8Cat2 c8Files ∧
    semantic_index_init (fun p => p) c8Cat2 c8Files
        (semantic_index_init (fun p => p) c8Cat c8Files ⟨[], none⟩).1 =
      ((semantic_index_init (fun p => p) c8Cat c8Files ⟨[], none⟩).1, false) :=
  @c8_idempotence (List SigEntry) _ (fun p => p) c8Cat c8Cat2 c8Files (by decide) (by decide)
